import Mathlib

/-!
Verification development for the sbemu Intel ICH / AC97 audio driver
(src/mpxplay/au_cards/sc_ich.c).

The definitions below are a shallow embedding of the driver code:
machine integers are natural numbers with explicit reduction modulo
256 / 65536 / 4294967296 wherever the C code reads an 8-, 16- or 32-bit
register or stores into an unsigned 32-bit variable; hardware register
reads are modelled by oracles (functions from the read sequence number to
the value delivered by the hardware); floating point arithmetic of the
clock calibrator is modelled exactly over the rationals.  Code that is
conditionally compiled on the SBEMU preprocessor flag is modelled with an
explicit sbemu flag so that both variants of the source are covered.
-/

namespace SBEmuICH

/-! ## Register-level constants, from the defines at the top of sc_ich.c -/

def ICH_PO_CR_START : Nat := 0x01
def ICH_PO_CR_RESET : Nat := 0x02
def ICH_PO_CR_LVBIE : Nat := 0x04
def ICH_PO_CR_FEIE : Nat := 0x08
def ICH_PO_CR_IOCE : Nat := 0x10

def ICH_PO_SR_DCH : Nat := 0x01
def ICH_PO_SR_LVBCI : Nat := 0x04
def ICH_PO_SR_BCIS : Nat := 0x08
def ICH_PO_SR_FIFO : Nat := 0x10

def ICH_PCM_20BIT : Nat := 0x00400000
def ICH_PCM_246_MASK : Nat := 0x00300000
def ICH_SIS_PCM_246_MASK : Nat := 0x000000c0

def ICH_SAMPLE_CAP : Nat := 0x00c00000
def ICH_SAMPLE_16_20 : Nat := 0x00400000

def ICH_BD_IOC : Nat := 0x8000

def ICH_DMABUF_MAX_PERIODS : Nat := 32
def ICH_DMABUF_PERIODS : Nat := 4

/-- Device families, from the enum DEVICE_INTEL, DEVICE_INTEL_ICH4,
DEVICE_NFORCE, DEVICE_SIS in sc_ich.c. -/
inductive DevType where
  | intel
  | intelIch4
  | nforce
  | sis
deriving DecidableEq, Repr

/-- Status register offset: the C define ICH_PO_SR_REG is 0x18 for
DEVICE_SIS and 0x16 for every other family. -/
def ICH_PO_SR_REG (t : DevType) : Nat := if t = .sis then 0x18 else 0x16

/-- Position-in-current-buffer register offset: the C define
ICH_PO_PICB_REG is 0x16 for DEVICE_SIS and 0x18 for every other family. -/
def ICH_PO_PICB_REG (t : DevType) : Nat := if t = .sis then 0x16 else 0x18

/-! ## DeviceProfile registry (static table ich_devices) -/

/-- One row of the static pci_device_s table ich_devices. -/
structure PciDeviceRow where
  device_name : String
  vendor_id : Nat
  device_id : Nat
  device_type : DevType
deriving DecidableEq, Repr

/-- The static device table ich_devices from sc_ich.c (the NULL sentinel
row is represented by the end of the list). -/
def ich_devices : List PciDeviceRow :=
  [ ⟨"82801AA", 0x8086, 0x2415, .intel⟩,
    ⟨"82901AB", 0x8086, 0x2425, .intel⟩,
    ⟨"82801BA", 0x8086, 0x2445, .intel⟩,
    ⟨"ICH3",    0x8086, 0x2485, .intel⟩,
    ⟨"ICH4",    0x8086, 0x24c5, .intelIch4⟩,
    ⟨"ICH5",    0x8086, 0x24d5, .intelIch4⟩,
    ⟨"ESB",     0x8086, 0x25a6, .intelIch4⟩,
    ⟨"ICH6",    0x8086, 0x266e, .intelIch4⟩,
    ⟨"ICH7",    0x8086, 0x27de, .intelIch4⟩,
    ⟨"ESB2",    0x8086, 0x2698, .intelIch4⟩,
    ⟨"440MX",   0x8086, 0x7195, .intel⟩,
    ⟨"SI7012",  0x1039, 0x7012, .sis⟩,
    ⟨"NFORCE",  0x10de, 0x01b1, .nforce⟩,
    ⟨"MCP04",   0x10de, 0x003a, .nforce⟩,
    ⟨"NFORCE2", 0x10de, 0x006a, .nforce⟩,
    ⟨"CK804",   0x10de, 0x0059, .nforce⟩,
    ⟨"CK8",     0x10de, 0x008a, .nforce⟩,
    ⟨"NFORCE3", 0x10de, 0x00da, .nforce⟩,
    ⟨"CK8S",    0x10de, 0x00ea, .nforce⟩,
    ⟨"AMD8111", 0x1022, 0x746d, .intel⟩,
    ⟨"AMD768",  0x1022, 0x7445, .intel⟩ ]

/-- Resolution of a (vendor id, device id) pair against the static table,
as performed by pcibios_search_devices over ich_devices: the first row
whose vendor and device ids both match, none when no row matches. -/
def resolveDevice (vendorId deviceId : Nat) : Option DevType :=
  (ich_devices.find? fun r => r.vendor_id == vendorId && r.device_id == deviceId).map
    (·.device_type)

/-! ## INTELICH_setrate frequency selection -/

/-- Frequency actually programmed by INTELICH_setrate: when the codec has
no variable-rate-audio capability the frequency is forced to 48000,
otherwise the request is clamped into the range 8000..48000. -/
def INTELICH_setrate_freq (vra : Bool) (freq : Nat) : Nat :=
  if !vra then 48000
  else if freq < 8000 then 8000
  else if 48000 < freq then 48000
  else freq

/-! ## SPDIF sample-rate selection in snd_intel_prepare_playback -/

/-- SPDIF sample-rate field selection from snd_intel_prepare_playback:
the switch on aui member freq_card maps 32000 to the 32 kHz code, 44100
to the 44.1 kHz code and everything else to the 48 kHz code.  The three
AC97_SC_SPSR codes are represented here by the rate they stand for. -/
def spdifRateSelect (freqCard : Nat) : Nat :=
  if freqCard = 32000 then 32000
  else if freqCard = 44100 then 44100
  else 48000

/-- Modelled from the spec: the member of the set containing 32000, 44100
and 48000 that is nearest to the requested frequency (the spec sentence
says the side-band SPDIF sample-rate field is programmed to the nearest
of these three rates).  Used only to compare the source behaviour against
the specified one. -/
def nearestSpdifRate (f : Nat) : Nat :=
  let dist := fun r => max f r - min f r
  if dist 32000 ≤ dist 44100 ∧ dist 32000 ≤ dist 48000 then 32000
  else if dist 44100 ≤ dist 48000 then 44100
  else 48000

/-! ## Clock corrector computation, snd_intel_measure_ac97_clock -/

/-- Filtering applied to the freshly computed clock corrector in
snd_intel_measure_ac97_clock: a value strictly between 0.99 and 1.01 is
reset to 0, then a value below 0.60 or above 1.5 is reset to 0.  The C
float arithmetic is modelled exactly over the rationals. -/
def clampCorrector (c : ℚ) : ℚ :=
  let c1 := if 99/100 < c ∧ c < 101/100 then 0 else c
  if c1 < 3/5 ∨ 3/2 < c1 then 0 else c1

/-- Raw corrector value computed by snd_intel_measure_ac97_clock before
filtering: the nominal data speed freq multiplied by channels and bytes per
sample (an integer division of the bit width by 8, as in the C source),
divided by the measured speed, which is the test buffer length of
period_size_bytes times ICH_DMABUF_PERIODS minus one, scaled to bytes per
second by the measured duration timelen in microseconds. -/
def measuredCorrector (freqCard chanCard bitsCard psb : Nat) (timelen : Int) : ℚ :=
  ((freqCard : ℚ) * (chanCard : ℚ) * ((bitsCard / 8 : Nat) : ℚ))
    / (((psb * (ICH_DMABUF_PERIODS - 1) : Nat) : ℚ) * 1000000 / (timelen : ℚ))

/-- Stored clock corrector after snd_intel_measure_ac97_clock: the
computation and filtering run only when the measured duration is nonzero
and below one second, otherwise the previous value (zero from the calloc
of the card structure on the one-time first run) is kept. -/
def snd_intel_measure_corrected (prev : ℚ) (freqCard chanCard bitsCard psb : Nat)
    (timelen : Int) : ℚ :=
  if timelen ≠ 0 ∧ timelen < 1000000 then
    clampCorrector (measuredCorrector freqCard chanCard bitsCard psb timelen)
  else prev

/-! ## Channel and sample-format setup in snd_intel_prepare_playback -/

/-- Helper for the funcbit_disable macro on a 32-bit register value:
clearing the bits of mask, written as a bitwise AND with the 32-bit
complement of the mask. -/
def funcbitDisable32 (v mask : Nat) : Nat := v &&& (0xFFFFFFFF ^^^ mask)

/-- Helper for the funcbit_enable macro: a bitwise OR of the mask. -/
def funcbitEnable (v mask : Nat) : Nat := v ||| mask

/-- Result of the channel and format configuration step of
snd_intel_prepare_playback: the value written back to the global control
register and the effective bits reported in the aui bits_card field. -/
structure PcmOutResult where
  globCnt : Nat
  bitsCard : Nat
deriving DecidableEq, Repr

/-- Channel and sample-format configuration step of
snd_intel_prepare_playback: for DEVICE_SIS the 2-bit SIS multichannel
mask is cleared from the global control register; for every other family
both the multichannel mask and the 20-bit-sample bit are cleared and
then, only for DEVICE_INTEL_ICH4 with the global status capability bits
reading back exactly ICH_SAMPLE_16_20 and more than 16 bits requested,
the 20-bit-sample bit is set and bits_card becomes 32.  The bitsCardIn
argument is the incoming value of the aui bits_card field (set to 16 by
INTELICH_setrate before this code runs). -/
def snd_intel_setup_pcm_out (dev : DevType) (bitsSet bitsCardIn globStat globCnt : Nat) :
    PcmOutResult :=
  if dev = .sis then
    { globCnt := funcbitDisable32 globCnt ICH_SIS_PCM_246_MASK, bitsCard := bitsCardIn }
  else
    let cmd := funcbitDisable32 globCnt (ICH_PCM_246_MASK ||| ICH_PCM_20BIT)
    if 16 < bitsSet ∧ dev = .intelIch4 ∧ globStat &&& ICH_SAMPLE_CAP = ICH_SAMPLE_16_20 then
      { globCnt := funcbitEnable cmd ICH_PCM_20BIT, bitsCard := 32 }
    else
      { globCnt := cmd, bitsCard := bitsCardIn }

/-! ## Buffer descriptor list construction in snd_intel_prepare_playback -/

/-- Content of one buffer descriptor list entry written by the two loops
of snd_intel_prepare_playback, as the pair of 32-bit words at
table_base index 2k and 2k+1: the first ICH_DMABUF_PERIODS slots hold
the physical address of the k-th period slice of the PCM buffer and the
period length (in bytes for DEVICE_SIS, in samples for the others, with
the IOC flag folded into the high word in the SBEMU build); the
remaining slots hold zero in both words. -/
def bdlEntry (sbemu isSIS : Bool) (physBase psb bitsCard k : Nat) : Nat × Nat :=
  if k < ICH_DMABUF_PERIODS then
    let lenUnit := if isSIS then psb else psb / (bitsCard >>> 3)
    ((physBase + k * psb) % 4294967296,
     if sbemu then (lenUnit % 4294967296) ||| (ICH_BD_IOC <<< 16) else lenUnit % 4294967296)
  else
    (0, 0)

/-- The full 32-slot buffer descriptor list written by
snd_intel_prepare_playback. -/
def bdlTable (sbemu isSIS : Bool) (physBase psb bitsCard : Nat) : List (Nat × Nat) :=
  (List.range ICH_DMABUF_MAX_PERIODS).map (bdlEntry sbemu isSIS physBase psb bitsCard)

/-! ## INTELICH_stop and INTELICH_close -/

/-- Card-instance fields relevant to close: the busmaster base port used
by the guard in snd_intel_chip_close. -/
structure IntelCardModel where
  baseport_bm : Nat
deriving DecidableEq, Repr

/-- World state threaded through stop and close: the private-data handle
of the aui structure (none once closed), the 8-bit transfer control
register, the number of resource-release calls performed, and the number
of reset writes issued by snd_intel_chip_close. -/
structure StopCloseWorld where
  card : Option IntelCardModel
  cr : Nat
  freeCount : Nat
  resetWrites : Nat
deriving DecidableEq, Repr

/-- The chip-close step snd_intel_chip_close: only when the busmaster
base port is nonzero is the reset bit written to the transfer control
register. -/
def snd_intel_chip_close (c : IntelCardModel) (cr : Nat) : Nat :=
  if c.baseport_bm ≠ 0 then ICH_PO_CR_RESET else cr

/-- INTELICH_stop: reads the 8-bit transfer control register, clears the
start bit with funcbit_disable and writes the value back.  The function
dereferences the private-data handle without a guard, so on a world whose
handle has already been nulled by INTELICH_close the access faults; that
is modelled by the none result. -/
def INTELICH_stop (w : StopCloseWorld) : Option StopCloseWorld :=
  match w.card with
  | none => none
  | some _ => some { w with cr := (w.cr % 256) &&& (0xFF ^^^ ICH_PO_CR_START) }

/-- INTELICH_close: guarded by the null check on the private-data handle;
when a card is present it runs snd_intel_chip_close, releases the DMA and
card allocations once, and nulls the handle. -/
def INTELICH_close (w : StopCloseWorld) : StopCloseWorld :=
  match w.card with
  | none => w
  | some c =>
    { card := none,
      cr := snd_intel_chip_close c w.cr,
      freeCount := w.freeCount + 1,
      resetWrites := w.resetWrites + (if c.baseport_bm ≠ 0 then 1 else 0) }

/-! ## INTELICH_IRQRoutine -/

/-- Registers and diagnostic counters visible to the interrupt routine
before it runs. -/
structure IrqState where
  sr : Nat
  cr : Nat
  lvi : Nat
  bup : Nat
  ioc : Nat
  fifoErr : Nat
deriving DecidableEq, Repr

/-- Outcome of the interrupt routine: updated registers and counters, the
value written back to the status register as acknowledgement, and the
boolean returned to the host dispatcher. -/
structure IrqResult where
  cr : Nat
  lvi : Nat
  bup : Nat
  ioc : Nat
  fifoErr : Nat
  ack : Nat
  handled : Bool
deriving DecidableEq, Repr

/-- INTELICH_IRQRoutine: one 8-bit read of the status register, then the
three cause-bit branches (last-valid-buffer completion restarts playback
and reprograms the last valid index to 3; buffer completion advances the
last valid index by one modulo ICH_DMABUF_PERIODS; a FIFO error only
counts), the acknowledgement write back of exactly the three cause bits
observed, and the return value status not equal to zero. -/
def INTELICH_IRQRoutine (s : IrqState) : IrqResult :=
  let status := s.sr % 256
  let cr1 := if status &&& ICH_PO_SR_LVBCI ≠ 0 then
      ((s.cr % 256) ||| (ICH_PO_CR_START ||| ICH_PO_CR_IOCE ||| ICH_PO_CR_FEIE ||| ICH_PO_CR_LVBIE))
    else s.cr
  let lvi1 := if status &&& ICH_PO_SR_LVBCI ≠ 0 then ICH_DMABUF_PERIODS - 1 else s.lvi
  let bup1 := if status &&& ICH_PO_SR_LVBCI ≠ 0 then s.bup + 1 else s.bup
  let lvi2 := if status &&& ICH_PO_SR_BCIS ≠ 0 then ((lvi1 % 256) + 1) % ICH_DMABUF_PERIODS else lvi1
  let ioc1 := if status &&& ICH_PO_SR_BCIS ≠ 0 then s.ioc + 1 else s.ioc
  let fifo1 := if status &&& ICH_PO_SR_FIFO ≠ 0 then s.fifoErr + 1 else s.fifoErr
  { cr := cr1,
    lvi := lvi2,
    bup := bup1,
    ioc := ioc1,
    fifoErr := fifo1,
    ack := status &&& (ICH_PO_SR_LVBCI ||| ICH_PO_SR_BCIS ||| ICH_PO_SR_FIFO),
    handled := status ≠ 0 }

/-! ## INTELICH_getbufpos -/

/-- Configuration of the card at the time of a position query. -/
structure GbParams where
  sbemu : Bool
  isSIS : Bool
  bits_card : Nat
  period_size_bytes : Nat
  dmasize : Nat
deriving DecidableEq, Repr

/-- Hardware read oracles: the value delivered by the n-th read of the
current index register, of the position-in-current-buffer register, and
of the last valid index register during one call. -/
structure HwTrace where
  civ : Nat → Nat
  picb : Nat → Nat
  lvi : Nat → Nat

/-- State threaded through the retry loop of INTELICH_getbufpos: the
last known-good position field card_dma_lastgoodpos, the DMA underrun
info bit, the number of MDma_clearbuf calls, the number of zero writes
to the current index register, and the per-register read counters that
index the oracles. -/
structure GbState where
  lastgood : Nat
  underrun : Bool
  clearCount : Nat
  civWriteZero : Nat
  civReads : Nat
  picbReads : Nat
  lviReads : Nat
deriving DecidableEq, Repr

/-- Tail of one iteration of the INTELICH_getbufpos loop: the remaining
count is subtracted from the period size in 32-bit unsigned arithmetic,
the linear offset is formed from the current index, and the result is
accepted (stored into card_dma_lastgoodpos, leaving the loop) only when
it is below the declared DMA buffer size.  Sum.inl means the loop
continues with the retry counter decremented, Sum.inr means break. -/
def gbTail (p : GbParams) (index pcmpos : Nat) (s : GbState) : GbState ⊕ GbState :=
  let consumed := (p.period_size_bytes + (4294967296 - pcmpos % 4294967296)) % 4294967296
  let bufpos := ((index * p.period_size_bytes) % 4294967296 + consumed) % 4294967296
  if bufpos < p.dmasize then Sum.inr { s with lastgood := bufpos }
  else Sum.inl s

/-- One iteration of the do-while body of INTELICH_getbufpos, entered
with the current value of the retry counter.  The current index is read
first; in the non-SBEMU build an index outside the valid range retries
immediately unless this is the final attempt, in which case the buffer is
cleared, zero is written to the current index register and the underrun
bit is set.  Then the position register is read and converted from
samples to bytes for every family but DEVICE_SIS; a zero or oversized
remaining count triggers the underrun handling when the last valid index
equals the current index (with an immediate retry in the non-SBEMU
build); the non-SBEMU build finally re-reads the current index and
retries when it moved. -/
def gbBody (p : GbParams) (tr : HwTrace) (retry : Nat) (s : GbState) : GbState ⊕ GbState :=
  let index := tr.civ s.civReads % 256
  let s1 : GbState := { s with civReads := s.civReads + 1 }
  if p.sbemu = false ∧ ICH_DMABUF_PERIODS ≤ index then
    if 1 < retry then Sum.inl s1
    else Sum.inl { s1 with
      clearCount := s1.clearCount + 1,
      civWriteZero := s1.civWriteZero + 1,
      underrun := true }
  else
    let pcmraw := tr.picb s1.picbReads % 65536
    let s2 : GbState := { s1 with picbReads := s1.picbReads + 1 }
    let pcmpos := if p.isSIS then pcmraw else (pcmraw * (p.bits_card >>> 3)) % 4294967296
    if pcmpos = 0 ∨ p.period_size_bytes < pcmpos then
      let lviVal := tr.lvi s2.lviReads % 256
      let s3 : GbState := { s2 with lviReads := s2.lviReads + 1 }
      let s4 : GbState := if lviVal = index then
          { s3 with clearCount := s3.clearCount + 1, underrun := true }
        else s3
      if p.sbemu = false then Sum.inl s4
      else gbTail p index pcmpos s4
    else
      if p.sbemu = false then
        let verify := tr.civ s2.civReads % 256
        let s3 : GbState := { s2 with civReads := s2.civReads + 1 }
        if verify ≠ index then Sum.inl s3
        else gbTail p index pcmpos s3
      else gbTail p index pcmpos s2

/-- The retry loop of INTELICH_getbufpos: the body runs with the current
retry counter value; a continue decrements the counter and leaves the
loop once it reaches zero, a break leaves immediately. -/
def gbLoop (p : GbParams) (tr : HwTrace) : Nat → GbState → GbState
  | 0, s => s
  | r + 1, s =>
    match gbBody p tr (r + 1) s with
    | Sum.inr s' => s'
    | Sum.inl s' => if r = 0 then s' else gbLoop p tr r s'

/-- Final state of one INTELICH_getbufpos call, which enters the loop
with a retry budget of 3. -/
def gbRun (p : GbParams) (tr : HwTrace) (s : GbState) : GbState :=
  gbLoop p tr 3 s

/-- Return value of INTELICH_getbufpos: always the card_dma_lastgoodpos
field of the final state. -/
def INTELICH_getbufpos (p : GbParams) (tr : HwTrace) (s : GbState) : Nat :=
  (gbRun p tr s).lastgood

/-! ## Helper lemmas on natural-number bit operations -/

theorem lor_land_self_right (a b : Nat) : (a ||| b) &&& b = b := by
  apply Nat.eq_of_testBit_eq
  intro i
  rw [Nat.testBit_land, Nat.testBit_lor]
  cases a.testBit i <;> cases b.testBit i <;> rfl

theorem land_lor_self_right (a b : Nat) : (a &&& b) ||| b = b := by
  apply Nat.eq_of_testBit_eq
  intro i
  rw [Nat.testBit_lor, Nat.testBit_land]
  cases a.testBit i <;> cases b.testBit i <;> rfl

theorem lor_land_eq_of_land_eq_zero {b m : Nat} (h : b &&& m = 0) (a : Nat) :
    (a ||| b) &&& m = a &&& m := by
  apply Nat.eq_of_testBit_eq
  intro i
  have hb : ¬(b.testBit i = true ∧ m.testBit i = true) := by
    rintro ⟨x, y⟩
    have h2 := congrArg (fun n => Nat.testBit n i) h
    simp [Nat.testBit_land, x, y] at h2
  rw [Nat.testBit_land, Nat.testBit_lor, Nat.testBit_land]
  cases ha : Nat.testBit a i <;> cases hb2 : Nat.testBit b i <;>
    cases hm : Nat.testBit m i <;> simp_all

theorem land_254_of_even {a : Nat} (h8 : a < 256) (h0 : a &&& 1 = 0) : a &&& 254 = a := by
  apply Nat.eq_of_testBit_eq
  intro i
  have hbit0 : a.testBit 0 = false := by
    have h2 := congrArg (fun n => Nat.testBit n 0) h0
    simpa [Nat.testBit_land] using h2
  rw [Nat.testBit_land]
  by_cases hi : i < 8
  · interval_cases i
    · simp [hbit0]
    all_goals simp [show Nat.testBit 254 1 = true from by decide,
      show Nat.testBit 254 2 = true from by decide,
      show Nat.testBit 254 3 = true from by decide,
      show Nat.testBit 254 4 = true from by decide,
      show Nat.testBit 254 5 = true from by decide,
      show Nat.testBit 254 6 = true from by decide,
      show Nat.testBit 254 7 = true from by decide]
  · have ha : a.testBit i = false := by
      apply Nat.testBit_eq_false_of_lt
      calc a < 256 := h8
        _ = 2 ^ 8 := by norm_num
        _ ≤ 2 ^ i := Nat.pow_le_pow_right (by norm_num) (by omega)
    simp [ha]

/-! ## Theorems for the claims -/

/-- C5: INTELICH_setrate forces the card frequency to 48000 when the
variable-rate-audio flag is clear, and otherwise clamps the requested
frequency into the range 8000 to 48000, keeping in-range values. -/
theorem INTELICH_setrate_freq_clamps (vra : Bool) (freq : Nat) :
    (vra = true →
      (freq < 8000 → INTELICH_setrate_freq vra freq = 8000) ∧
      (48000 < freq → INTELICH_setrate_freq vra freq = 48000) ∧
      (8000 ≤ freq → freq ≤ 48000 → INTELICH_setrate_freq vra freq = freq)) ∧
    (vra = false → INTELICH_setrate_freq vra freq = 48000) := by
  unfold INTELICH_setrate_freq
  constructor
  · rintro rfl
    refine ⟨fun h1 => ?_, fun h2 => ?_, fun h3 h4 => ?_⟩ <;>
      (split_ifs <;> first | rfl | omega | simp_all)
  · rintro rfl
    simp

/-- Witness for C5 at concrete inputs: a request of 5000 with
variable-rate audio becomes 8000, and any request without it becomes
48000. -/
theorem INTELICH_setrate_freq_clamps_witness :
    INTELICH_setrate_freq true 5000 = 8000 ∧ INTELICH_setrate_freq false 30000 = 48000 :=
  ⟨((INTELICH_setrate_freq_clamps true 5000).1 rfl).1 (by decide),
   (INTELICH_setrate_freq_clamps false 30000).2 rfl⟩

/-- C7: vendor 0x1039 and device 0x7012 resolve to the SIS7012 family,
whose status register offset is 0x18 and position register offset is
0x16 (the swap of the other families), and a pair absent from the static
table resolves to none. -/
theorem resolveDevice_sis7012 :
    resolveDevice 0x1039 0x7012 = some .sis ∧
    ICH_PO_SR_REG .sis = 0x18 ∧ ICH_PO_PICB_REG .sis = 0x16 ∧
    ∀ v d : Nat, (∀ r ∈ ich_devices, ¬(r.vendor_id = v ∧ r.device_id = d)) →
      resolveDevice v d = none := by
  refine ⟨by decide, by decide, by decide, ?_⟩
  intro v d h
  have hfind : (ich_devices.find? fun r => r.vendor_id == v && r.device_id == d) = none := by
    rw [List.find?_eq_none]
    intro r hr
    have h2 := h r hr
    simp only [Bool.and_eq_true, beq_iff_eq]
    exact fun hc => h2 hc
  simp [resolveDevice, hfind]

/-- Witness for C7 at a concrete absent pair. -/
theorem resolveDevice_sis7012_witness : resolveDevice 0x1234 0x5678 = none :=
  resolveDevice_sis7012.2.2.2 0x1234 0x5678 (by decide)

/-- C8 counterexample: at a requested card frequency of 33000 Hz the
prepare code programs the 48 kHz SPDIF code although the nearest member
of the rate set is 32000, so the selection is not the nearest rate. -/
theorem spdifRateSelect_counterexample :
    spdifRateSelect 33000 = 48000 ∧ nearestSpdifRate 33000 = 32000 ∧ (48000 : Nat) ≠ 32000 :=
  ⟨by decide, by decide, by decide⟩

/-- C8 (amended): the SPDIF sample-rate selection equals the nearest
member of the rate set only when the requested frequency is exactly
32000, 44100 or 48000, in which case that frequency itself is chosen;
every other requested frequency is mapped to 48000. -/
theorem spdifRateSelect_exact_match :
    (∀ f : Nat, (f = 32000 ∨ f = 44100 ∨ f = 48000) →
        spdifRateSelect f = nearestSpdifRate f ∧ spdifRateSelect f = f) ∧
    (∀ f : Nat, f ≠ 32000 → f ≠ 44100 → spdifRateSelect f = 48000) := by
  constructor
  · rintro f (rfl | rfl | rfl) <;> exact ⟨by decide, by decide⟩
  · intro f h1 h2
    unfold spdifRateSelect
    rw [if_neg h1, if_neg h2]

/-- Witness for C8 (amended) at concrete inputs. -/
theorem spdifRateSelect_exact_match_witness :
    spdifRateSelect 44100 = 44100 ∧ spdifRateSelect 12345 = 48000 :=
  ⟨(spdifRateSelect_exact_match.1 44100 (Or.inr (Or.inl rfl))).2,
   spdifRateSelect_exact_match.2 12345 (by decide) (by decide)⟩

/-- Range of the corrector filter: the result is zero or lies in the
closed band from 0.60 to 0.99 or in the closed band from 1.01 to 1.5. -/
theorem clampCorrector_range (c : ℚ) :
    clampCorrector c = 0 ∨ (3/5 ≤ clampCorrector c ∧ clampCorrector c ≤ 99/100) ∨
      (101/100 ≤ clampCorrector c ∧ clampCorrector c ≤ 3/2) := by
  by_cases h1 : 99/100 < c ∧ c < 101/100
  · left
    norm_num [clampCorrector, h1]
  · by_cases h2 : c < 3/5 ∨ 3/2 < c
    · left
      simp [clampCorrector, h1, h2]
    · have hc : clampCorrector c = c := by simp [clampCorrector, h1, h2]
      push_neg at h2
      rw [hc]
      rcases not_and_or.mp h1 with h | h
      · exact Or.inr (Or.inl ⟨h2.1, le_of_not_lt h⟩)
      · exact Or.inr (Or.inr ⟨le_of_not_lt h, h2.2⟩)

/-- C4 counterexample: a measurement of 63360 microseconds for the
three-period test buffer at 48 kHz stereo 16-bit with a 4096-byte period
computes a corrector of exactly 0.99; the code keeps 0.99 (its first
filter uses strict comparisons), yet 0.99 is neither 0 nor inside the
half-open bands of the claim, so the claimed range and the claimed
collapse of the closed interval from 0.99 to 1.01 are both false. -/
theorem corrector_boundary_counterexample :
    snd_intel_measure_corrected 0 48000 2 16 4096 63360 = 99/100 ∧
    ¬((99/100 : ℚ) = 0 ∨ (3/5 ≤ (99/100 : ℚ) ∧ (99/100 : ℚ) < 99/100) ∨
      (101/100 < (99/100 : ℚ) ∧ (99/100 : ℚ) ≤ 3/2)) := by
  constructor
  · norm_num [snd_intel_measure_corrected, measuredCorrector, clampCorrector,
      ICH_DMABUF_PERIODS]
  · norm_num

/-- C4 (amended): after clock measurement starting from the
zero-initialized corrector, the stored corrector is either 0 or lies in
the closed interval from 0.60 to 0.99 or in the closed interval from
1.01 to 1.5; computed correctors strictly between 0.99 and 1.01, or
strictly below 0.60, or strictly above 1.5, collapse to 0. -/
theorem corrector_range (freqCard chanCard bitsCard psb : Nat) (timelen : Int) :
    (snd_intel_measure_corrected 0 freqCard chanCard bitsCard psb timelen = 0 ∨
      (3/5 ≤ snd_intel_measure_corrected 0 freqCard chanCard bitsCard psb timelen ∧
       snd_intel_measure_corrected 0 freqCard chanCard bitsCard psb timelen ≤ 99/100) ∨
      (101/100 ≤ snd_intel_measure_corrected 0 freqCard chanCard bitsCard psb timelen ∧
       snd_intel_measure_corrected 0 freqCard chanCard bitsCard psb timelen ≤ 3/2)) ∧
    (∀ c : ℚ, 99/100 < c → c < 101/100 → clampCorrector c = 0) ∧
    (∀ c : ℚ, c < 3/5 → clampCorrector c = 0) ∧
    (∀ c : ℚ, 3/2 < c → clampCorrector c = 0) := by
  refine ⟨?_, ?_, ?_, ?_⟩
  · unfold snd_intel_measure_corrected
    split_ifs with h
    · exact clampCorrector_range _
    · exact Or.inl rfl
  · intro c hl hr
    norm_num [clampCorrector, hl, hr]
  · intro c h
    by_cases h1 : 99/100 < c ∧ c < 101/100
    · norm_num [clampCorrector, h1]
    · simp [clampCorrector, h1, Or.inl h]
  · intro c h
    by_cases h1 : 99/100 < c ∧ c < 101/100
    · norm_num [clampCorrector, h1]
    · simp [clampCorrector, h1, Or.inr h]

/-- Witness for C4 (amended) at concrete inputs: a corrector of 1
collapses to 0, as do 0.5 and 2. -/
theorem corrector_range_witness :
    clampCorrector 1 = 0 ∧ clampCorrector (1/2) = 0 ∧ clampCorrector 2 = 0 :=
  ⟨(corrector_range 0 0 0 0 0).2.1 1 (by norm_num) (by norm_num),
   (corrector_range 0 0 0 0 0).2.2.1 (1/2) (by norm_num),
   (corrector_range 0 0 0 0 0).2.2.2 2 (by norm_num)⟩

/-- C6: with the effective bits entering as 16, every family other than
ICH4 keeps the effective output at 16 bits whatever bit depth was
requested; outside the ICH4 and SIS branches the 20-bit-sample bit is
cleared outright, and in the SIS branch a clear 20-bit-sample bit stays
clear; the 20-bit path (bits_card 32 and the 20-bit-sample bit set)
activates exactly when the family is ICH4, more than 16 bits were
requested and the capability bits read back as the 16/20-bit value. -/
theorem setup_pcm_out_20bit_policy (dev : DevType) (bitsSet globStat globCnt : Nat) :
    (dev ≠ .intelIch4 → (snd_intel_setup_pcm_out dev bitsSet 16 globStat globCnt).bitsCard = 16) ∧
    (dev ≠ .intelIch4 → dev ≠ .sis →
      (snd_intel_setup_pcm_out dev bitsSet 16 globStat globCnt).globCnt &&& ICH_PCM_20BIT = 0) ∧
    (dev = .sis → globCnt &&& ICH_PCM_20BIT = 0 →
      (snd_intel_setup_pcm_out dev bitsSet 16 globStat globCnt).globCnt &&& ICH_PCM_20BIT = 0) ∧
    ((snd_intel_setup_pcm_out dev bitsSet 16 globStat globCnt).bitsCard = 32 →
      dev = .intelIch4 ∧ 16 < bitsSet ∧ globStat &&& ICH_SAMPLE_CAP = ICH_SAMPLE_16_20) ∧
    (dev = .intelIch4 → 16 < bitsSet → globStat &&& ICH_SAMPLE_CAP = ICH_SAMPLE_16_20 →
      (snd_intel_setup_pcm_out dev bitsSet 16 globStat globCnt).bitsCard = 32 ∧
      (snd_intel_setup_pcm_out dev bitsSet 16 globStat globCnt).globCnt &&& ICH_PCM_20BIT =
        ICH_PCM_20BIT) := by
  refine ⟨?_, ?_, ?_, ?_, ?_⟩
  · intro hne
    unfold snd_intel_setup_pcm_out
    split_ifs with hs hc
    · rfl
    · exact absurd hc.2.1 hne
    · rfl
  · intro hne hns
    unfold snd_intel_setup_pcm_out funcbitDisable32
    rw [if_neg hns]
    split_ifs with hc
    · exact absurd hc.2.1 hne
    · show (globCnt &&& ((0xFFFFFFFF : Nat) ^^^ (ICH_PCM_246_MASK ||| ICH_PCM_20BIT))) &&&
        ICH_PCM_20BIT = 0
      rw [Nat.land_assoc]
      rw [show ((0xFFFFFFFF : Nat) ^^^ (ICH_PCM_246_MASK ||| ICH_PCM_20BIT)) &&&
        ICH_PCM_20BIT = 0 from by decide]
      simp
  · intro hs h20
    subst hs
    unfold snd_intel_setup_pcm_out funcbitDisable32
    rw [if_pos rfl]
    show (globCnt &&& ((0xFFFFFFFF : Nat) ^^^ ICH_SIS_PCM_246_MASK)) &&& ICH_PCM_20BIT = 0
    rw [Nat.land_assoc]
    rw [show ((0xFFFFFFFF : Nat) ^^^ ICH_SIS_PCM_246_MASK) &&& ICH_PCM_20BIT =
      ICH_PCM_20BIT from by decide]
    exact h20
  · intro h32
    unfold snd_intel_setup_pcm_out at h32
    split_ifs at h32 with hs hc
    · simp at h32
    · exact ⟨hc.2.1, hc.1, hc.2.2⟩
    · simp at h32
  · intro hd hb hcap
    have hns : dev ≠ .sis := by rw [hd]; decide
    unfold snd_intel_setup_pcm_out funcbitEnable
    rw [if_neg hns, if_pos ⟨hb, hd, hcap⟩]
    exact ⟨rfl, lor_land_self_right _ _⟩

/-- Witness for C6 at concrete inputs: scenario D, a 24-bit request on
the Standard family, stays at 16 bits; the same request on ICH4 with the
capability bits reading 16/20-bit support yields 32 bits. -/
theorem setup_pcm_out_20bit_policy_witness :
    (snd_intel_setup_pcm_out .intel 24 16 0 0).bitsCard = 16 ∧
    (snd_intel_setup_pcm_out .intelIch4 24 16 0x00400000 0).bitsCard = 32 :=
  ⟨(setup_pcm_out_20bit_policy .intel 24 0 0).1 (by decide),
   ((setup_pcm_out_20bit_policy .intelIch4 24 0x00400000 0).2.2.2.2 rfl (by decide)
     (by decide)).1⟩

/-- C9 counterexample: on a world whose private-data handle is already
nulled by a previous close, INTELICH_stop dereferences the handle with no
guard and faults (modelled by the none result), so the stop-then-close
sequence on an already-closed card is not fault-free as claimed; close
itself on the same world is a guarded no-op. -/
theorem stop_after_close_counterexample :
    INTELICH_stop { card := none, cr := 0, freeCount := 0, resetWrites := 0 } = none ∧
    INTELICH_close { card := none, cr := 0, freeCount := 0, resetWrites := 0 } =
      { card := none, cr := 0, freeCount := 0, resetWrites := 0 } :=
  ⟨rfl, rfl⟩

/-- C9 (amended): on an already-stopped but still open card, stop only
rewrites the transfer-control register with its start bit cleared and is
a register-level no-op; close nulls the private-data handle, releases
resources at most once, is idempotent, and is a no-op on an
already-closed world; the chip-close reset write is guarded by the
busmaster base port.  Stop must not be called after close: it
dereferences the nulled handle unguarded. -/
theorem stop_close_idempotent (w : StopCloseWorld) (c : IntelCardModel) :
    (w.card = some c → w.cr < 256 → w.cr &&& ICH_PO_CR_START = 0 → INTELICH_stop w = some w) ∧
    ((INTELICH_close w).card = none) ∧
    (INTELICH_close (INTELICH_close w) = INTELICH_close w) ∧
    ((INTELICH_close w).freeCount ≤ w.freeCount + 1) ∧
    (w.card = none → INTELICH_close w = w) ∧
    (∀ cr : Nat, c.baseport_bm = 0 → snd_intel_chip_close c cr = cr) := by
  refine ⟨?_, ?_, ?_, ?_, ?_, ?_⟩
  · intro hc h8 h0
    obtain ⟨wc, wcr, wf, wrs⟩ := w
    dsimp only at hc h8 h0
    subst hc
    have h1 : (wcr % 256) &&& ((0xFF : Nat) ^^^ ICH_PO_CR_START) = wcr := by
      rw [Nat.mod_eq_of_lt h8, show (0xFF : Nat) ^^^ ICH_PO_CR_START = 254 from by decide]
      exact land_254_of_even h8 h0
    have hstep : INTELICH_stop { card := some c, cr := wcr, freeCount := wf, resetWrites := wrs } =
        some { card := some c, cr := (wcr % 256) &&& ((0xFF : Nat) ^^^ ICH_PO_CR_START),
               freeCount := wf, resetWrites := wrs } := rfl
    rw [hstep, h1]
  · cases hw : w.card <;> simp [INTELICH_close, hw]
  · cases hw : w.card <;> simp [INTELICH_close, hw]
  · cases hw : w.card <;> simp [INTELICH_close, hw]
  · intro hw
    simp [INTELICH_close, hw]
  · intro cr hb
    simp [snd_intel_chip_close, hb]

/-- Witness for C9 (amended) at concrete inputs: stop on an open card
whose start bit is clear leaves the world unchanged, and chip close with
a zero base port writes nothing. -/
theorem stop_close_idempotent_witness :
    INTELICH_stop { card := some ⟨0x1000⟩, cr := 0x1C, freeCount := 0, resetWrites := 0 } =
      some { card := some ⟨0x1000⟩, cr := 0x1C, freeCount := 0, resetWrites := 0 } ∧
    snd_intel_chip_close ⟨0⟩ 5 = 5 :=
  ⟨(stop_close_idempotent _ ⟨0x1000⟩).1 rfl (by decide) (by decide),
   (stop_close_idempotent { card := none, cr := 0, freeCount := 0, resetWrites := 0 }
     ⟨0⟩).2.2.2.2.2 5 rfl⟩

/-- C10: the interrupt routine returns true exactly when the raw 8-bit
status value it read is nonzero; its acknowledgement write back is the
status masked to the three interrupt-cause bits and thus covers only
those bits; and on a status byte consisting of the read-only DMA-halted
bit alone, the routine reports the interrupt as handled although none of
the three cause bits is set and the acknowledgement is empty. -/
theorem IRQRoutine_handled_iff (s : IrqState) :
    ((INTELICH_IRQRoutine s).handled = true ↔ s.sr % 256 ≠ 0) ∧
    (INTELICH_IRQRoutine s).ack =
      (s.sr % 256) &&& (ICH_PO_SR_LVBCI ||| ICH_PO_SR_BCIS ||| ICH_PO_SR_FIFO) ∧
    ((INTELICH_IRQRoutine s).ack ||| (ICH_PO_SR_LVBCI ||| ICH_PO_SR_BCIS ||| ICH_PO_SR_FIFO)) =
      (ICH_PO_SR_LVBCI ||| ICH_PO_SR_BCIS ||| ICH_PO_SR_FIFO) ∧
    (INTELICH_IRQRoutine
      { sr := ICH_PO_SR_DCH, cr := 0, lvi := 0, bup := 0, ioc := 0, fifoErr := 0 }).handled =
      true ∧
    ICH_PO_SR_DCH &&& (ICH_PO_SR_LVBCI ||| ICH_PO_SR_BCIS ||| ICH_PO_SR_FIFO) = 0 := by
  refine ⟨?_, rfl, land_lor_self_right _ _, by decide, by decide⟩
  simp [INTELICH_IRQRoutine]

/-- C2: for any period size accepted by setrate (hypotheses: the length
in the profile's unit fits the 16-bit descriptor length field and the
last slice address does not wrap 32 bits), the buffer descriptor list
written by snd_intel_prepare_playback has 32 slots of which exactly the
first 4 are populated: slot k holds the physical address of the PCM
buffer base plus k times the period size, and its length field (the low
16 bits of the second word) holds the period length in the profile's
unit, which is bytes for SIS7012 and samples otherwise; the remaining 28
slots hold address 0 and length word 0.  This holds in both builds of
the source (with and without SBEMU, which only adds the IOC flag to the
high word of the populated slots). -/
theorem bdl_layout (sbemu isSIS : Bool) (physBase psb bitsCard : Nat)
    (haddr : physBase + 3 * psb < 4294967296)
    (hlen : (if isSIS then psb else psb / (bitsCard >>> 3)) < 65536) :
    (bdlTable sbemu isSIS physBase psb bitsCard).length = 32 ∧
    (∀ k : Nat, k < 4 →
      (bdlTable sbemu isSIS physBase psb bitsCard)[k]?.map Prod.fst =
          some (physBase + k * psb) ∧
      (bdlTable sbemu isSIS physBase psb bitsCard)[k]?.map (fun e => e.2 % 65536) =
          some (if isSIS then psb else psb / (bitsCard >>> 3))) ∧
    (∀ k : Nat, 4 ≤ k → k < 32 →
      (bdlTable sbemu isSIS physBase psb bitsCard)[k]? = some (0, 0)) := by
  set lenUnit := if isSIS then psb else psb / (bitsCard >>> 3) with hlu
  refine ⟨by simp [bdlTable, ICH_DMABUF_MAX_PERIODS], ?_, ?_⟩
  · intro k hk
    have hk32 : k < 32 := by omega
    have htab : (bdlTable sbemu isSIS physBase psb bitsCard)[k]? =
        some (bdlEntry sbemu isSIS physBase psb bitsCard k) := by
      rw [bdlTable, List.getElem?_map, show ICH_DMABUF_MAX_PERIODS = 32 from rfl,
        List.getElem?_range hk32, Option.map_some']
    have haddrk : (physBase + k * psb) % 4294967296 = physBase + k * psb := by
      apply Nat.mod_eq_of_lt
      have : k * psb ≤ 3 * psb := Nat.mul_le_mul_right psb (by omega)
      omega
    have hlenmod : lenUnit % 4294967296 = lenUnit := Nat.mod_eq_of_lt (by omega)
    have hentry : bdlEntry sbemu isSIS physBase psb bitsCard k =
        ((physBase + k * psb) % 4294967296,
          if sbemu then (lenUnit % 4294967296) ||| (ICH_BD_IOC <<< 16)
          else lenUnit % 4294967296) := by
      rw [bdlEntry, if_pos (show k < ICH_DMABUF_PERIODS from hk)]
    constructor
    · rw [htab, hentry, Option.map_some', haddrk]
    · rw [htab, hentry, Option.map_some']
      cases sbemu with
      | false =>
        rw [if_neg (by simp), hlenmod]
        exact congrArg some (Nat.mod_eq_of_lt (by omega))
      | true =>
        rw [if_pos rfl, hlenmod]
        have hmask : ((lenUnit ||| (ICH_BD_IOC <<< 16)) % 65536) = lenUnit := by
          have h16 : ((lenUnit ||| (ICH_BD_IOC <<< 16)) % 65536) =
              (lenUnit ||| (ICH_BD_IOC <<< 16)) &&& (2 ^ 16 - 1) := by
            rw [Nat.and_pow_two_sub_one_eq_mod]
          rw [h16, lor_land_eq_of_land_eq_zero (by decide) lenUnit]
          rw [Nat.and_pow_two_sub_one_eq_mod]
          exact Nat.mod_eq_of_lt (by omega)
        exact congrArg some hmask
  · intro k h4 h32
    rw [bdlTable, List.getElem?_map, show ICH_DMABUF_MAX_PERIODS = 32 from rfl,
      List.getElem?_range h32, Option.map_some']
    rw [bdlEntry, if_neg (show ¬k < ICH_DMABUF_PERIODS from by
      show ¬k < 4
      omega)]

/-- Witness for C2 at the concrete inputs of scenario B: a 4096-byte
period over a 16384-byte PCM buffer at physical base 1048576, in the
SBEMU build on a non-SIS family at 16 bits: slot 0 address is the buffer
base, slot 3 address is the base plus 12288, slot 10 is zeroed, and the
slot 0 length field is 2048 samples. -/
theorem bdl_layout_witness :
    (bdlTable true false 1048576 4096 16)[0]?.map Prod.fst = some 1048576 ∧
    (bdlTable true false 1048576 4096 16)[3]?.map Prod.fst = some 1060864 ∧
    (bdlTable true false 1048576 4096 16)[0]?.map (fun e => e.2 % 65536) = some 2048 ∧
    (bdlTable true false 1048576 4096 16)[10]? = some (0, 0) := by
  have h := bdl_layout true false 1048576 4096 16 (by norm_num) (by decide)
  refine ⟨?_, ?_, ?_, h.2.2 10 (by norm_num) (by norm_num)⟩
  · have h0 := (h.2.1 0 (by norm_num)).1
    simpa using h0
  · have h3 := (h.2.1 3 (by norm_num)).1
    norm_num at h3
    simpa using h3
  · have h0 := (h.2.1 0 (by norm_num)).2
    simpa using h0

/-- A continue outcome of the loop tail leaves the state unchanged. -/
theorem gbTail_inl_eq {p : GbParams} {index pcmpos : Nat} {s s' : GbState}
    (h : gbTail p index pcmpos s = Sum.inl s') : s' = s := by
  simp only [gbTail] at h
  split at h
  · simp at h
  · injection h with h2
    exact h2.symm

/-- A break outcome of the loop tail stores an offset below the declared
DMA buffer size. -/
theorem gbTail_inr_lt {p : GbParams} {index pcmpos : Nat} {s s' : GbState}
    (h : gbTail p index pcmpos s = Sum.inr s') : s'.lastgood < p.dmasize := by
  simp only [gbTail] at h
  split at h
  · rename_i hlt
    injection h with h2
    subst h2
    exact hlt
  · simp at h

/-- A continue outcome of the loop body never changes the stored last
known-good position. -/
theorem gbBody_inl_lastgood {p : GbParams} {tr : HwTrace} {retry : Nat} {s s' : GbState}
    (h : gbBody p tr retry s = Sum.inl s') : s'.lastgood = s.lastgood := by
  simp only [gbBody] at h
  repeat' split at h
  all_goals
    first
      | (have h2 := gbTail_inl_eq h; subst h2; rfl)
      | (injection h with h2; subst h2; rfl)

/-- A break outcome of the loop body stores an offset below the declared
DMA buffer size. -/
theorem gbBody_inr_lt {p : GbParams} {tr : HwTrace} {retry : Nat} {s s' : GbState}
    (h : gbBody p tr retry s = Sum.inr s') : s'.lastgood < p.dmasize := by
  simp only [gbBody] at h
  repeat' split at h
  all_goals
    first
      | exact gbTail_inr_lt h
      | injection h

/-- Across any number of loop iterations the stored last known-good
position is either untouched or replaced by an accepted offset below the
declared DMA buffer size. -/
theorem gbLoop_lastgood (p : GbParams) (tr : HwTrace) :
    ∀ r s, (gbLoop p tr r s).lastgood = s.lastgood ∨
      (gbLoop p tr r s).lastgood < p.dmasize := by
  intro r
  induction r with
  | zero => intro s; exact Or.inl rfl
  | succ n ih =>
    intro s
    cases hb : gbBody p tr (n + 1) s with
    | inr s2 =>
      have hrun : gbLoop p tr (n + 1) s = s2 := by
        rw [gbLoop, hb]
      rw [hrun]
      exact Or.inr (gbBody_inr_lt hb)
    | inl s2 =>
      have h2 : s2.lastgood = s.lastgood := gbBody_inl_lastgood hb
      by_cases hn : n = 0
      · subst hn
        have hrun : gbLoop p tr 1 s = s2 := by
          rw [gbLoop, hb]
          show (if 0 = 0 then s2 else gbLoop p tr 0 s2) = s2
          rw [if_pos rfl]
        rw [hrun, h2]
        exact Or.inl rfl
      · have hrun : gbLoop p tr (n + 1) s = gbLoop p tr n s2 := by
          rw [gbLoop, hb]
          show (if n = 0 then s2 else gbLoop p tr n s2) = gbLoop p tr n s2
          rw [if_neg hn]
        rw [hrun]
        rcases ih s2 with h | h
        · exact Or.inl (h.trans h2)
        · exact Or.inr h

/-- C1: the value returned by INTELICH_getbufpos is either the last
known-good offset the call started with or a freshly computed offset
that was accepted, and acceptance (storing into card_dma_lastgoodpos and
leaving the retry loop) happens only for offsets strictly below the
declared DMA buffer size; hence whenever the stored offset is below the
buffer size on entry, the returned offset is strictly below the buffer
size, and on exhaustion of the 3 attempts the stored offset is returned
unchanged.  This holds for both builds of the source and for every
hardware read trace. -/
theorem getbufpos_below_dmasize (p : GbParams) (tr : HwTrace) (s0 : GbState) :
    (INTELICH_getbufpos p tr s0 = s0.lastgood ∨ INTELICH_getbufpos p tr s0 < p.dmasize) ∧
    (s0.lastgood < p.dmasize → INTELICH_getbufpos p tr s0 < p.dmasize) := by
  have h := gbLoop_lastgood p tr 3 s0
  constructor
  · exact h
  · intro h0
    rcases h with h | h
    · show (gbLoop p tr 3 s0).lastgood < p.dmasize
      rw [h]
      exact h0
    · exact h

/-- Witness for C1 at a concrete card configuration, trace and initial
state. -/
theorem getbufpos_below_dmasize_witness :
    INTELICH_getbufpos
      { sbemu := true, isSIS := false, bits_card := 16, period_size_bytes := 4096,
        dmasize := 16384 }
      { civ := fun _ => 0, picb := fun _ => 0, lvi := fun _ => 0 }
      { lastgood := 0, underrun := false, clearCount := 0, civWriteZero := 0,
        civReads := 0, picbReads := 0, lviReads := 0 } < 16384 :=
  (getbufpos_below_dmasize _ _ _).2 (by decide)

/-- C3 counterexample: with the non-SBEMU index check compiled in, a call
whose first current-index read returns the invalid value 7 while the
second read returns 0 with a valid remaining count finishes with no
buffer clear, no write of 0 to the current index register and the
underrun flag still clear: the invalid read only consumed one of the 3
attempts, and the recovery actions the claim requires did not happen. -/
theorem getbufpos_invalid_index_counterexample :
    gbRun
      { sbemu := false, isSIS := false, bits_card := 16, period_size_bytes := 4096,
        dmasize := 16384 }
      { civ := fun n => if n = 0 then 7 else 0, picb := fun _ => 100, lvi := fun _ => 9 }
      { lastgood := 0, underrun := false, clearCount := 0, civWriteZero := 0,
        civReads := 0, picbReads := 0, lviReads := 0 } =
    { lastgood := 3896, underrun := false, clearCount := 0, civWriteZero := 0,
      civReads := 3, picbReads := 1, lviReads := 0 } := by
  decide

/-- C3 (amended): in the non-SBEMU build, a current-index read outside
the valid range 0..3 makes the body continue, consuming one of the 3
attempts; the recovery actions (buffer clear, write of 0 to the current
index register, underrun flag) are performed only when the invalid value
is read on the final attempt (retry counter at 1), and on earlier
attempts the body retries with nothing but the read counter advanced. -/
theorem gbBody_invalid_index (p : GbParams) (tr : HwTrace) (retry : Nat) (s : GbState)
    (hsb : p.sbemu = false) (hinv : ICH_DMABUF_PERIODS ≤ tr.civ s.civReads % 256) :
    (1 < retry → gbBody p tr retry s = Sum.inl { s with civReads := s.civReads + 1 }) ∧
    (retry ≤ 1 → gbBody p tr retry s = Sum.inl
      { s with
          civReads := s.civReads + 1
          clearCount := s.clearCount + 1
          civWriteZero := s.civWriteZero + 1
          underrun := true }) := by
  constructor <;> intro hr
  · simp only [gbBody]
    rw [if_pos ⟨hsb, hinv⟩, if_pos hr]
  · simp only [gbBody]
    rw [if_pos ⟨hsb, hinv⟩, if_neg (by omega)]

/-- Witness for C3 (amended) at a concrete trace: on the first of the 3
attempts an invalid index of 7 merely advances the read counter. -/
theorem gbBody_invalid_index_witness :
    gbBody
      { sbemu := false, isSIS := false, bits_card := 16, period_size_bytes := 4096,
        dmasize := 16384 }
      { civ := fun _ => 7, picb := fun _ => 0, lvi := fun _ => 0 }
      3
      { lastgood := 0, underrun := false, clearCount := 0, civWriteZero := 0,
        civReads := 0, picbReads := 0, lviReads := 0 } =
    Sum.inl
      { lastgood := 0, underrun := false, clearCount := 0, civWriteZero := 0,
        civReads := 1, picbReads := 0, lviReads := 0 } :=
  (gbBody_invalid_index _ _ 3 _ rfl (by decide)).1 (by decide)

end SBEmuICH
